import Mathlib

/-!
Shallow embedding of the GRBL serial engine of the `dl-44` repository
(`dl44-app/src-tauri/src/grbl/{protocol,status,worker,controller}.rs`).

Strings are handled as explicit character lists with structural recursion so
that every definition evaluates by kernel reduction.  Rust `f64` values that
appear in status reports and frame bounds are modelled as exact rationals
(status lines carry fixed-point decimals, which f64 arithmetic handles exactly
on the inputs exercised here); `u32`/`u64` counters are modelled as `Nat`,
with the `u32` parse bound made explicit.
-/

/-- ASCII whitespace test backing `str::trim` (Rust trims Unicode whitespace;
the GRBL protocol only produces ASCII). -/
def isWs (c : Char) : Bool :=
  c == ' ' || c == '\t' || c == '\n' || c == '\r'

def dropWhileWs : List Char → List Char
  | [] => []
  | c :: rest => if isWs c then dropWhileWs rest else c :: rest

/-- Rust `str::trim` on a character list. -/
def trimChars (cs : List Char) : List Char :=
  (dropWhileWs (dropWhileWs cs).reverse).reverse

/-- Rust `str::strip_prefix`: remove a leading pattern, or fail. -/
def stripLead : List Char → List Char → Option (List Char)
  | [], s => some s
  | _ :: _, [] => none
  | p :: ps, c :: cs => if p = c then stripLead ps cs else none

/-- Rust `str::strip_suffix`: remove a trailing pattern, or fail. -/
def stripTrail (p s : List Char) : Option (List Char) :=
  (stripLead p.reverse s.reverse).map List.reverse

/-- Rust `str::split_once`: split at the first occurrence of `sep`. -/
def splitOnceChar (sep : Char) : List Char → Option (List Char × List Char)
  | [] => none
  | c :: rest =>
    if c = sep then some ([], rest)
    else (splitOnceChar sep rest).map (fun p => (c :: p.1, p.2))

/-- Rust `str::split(sep)`: always yields at least one (possibly empty) piece. -/
def splitChar (sep : Char) : List Char → List (List Char)
  | [] => [[]]
  | c :: rest =>
    if c = sep then [] :: splitChar sep rest
    else
      match splitChar sep rest with
      | h :: t => (c :: h) :: t
      | [] => [[c]]

def headIs (c : Char) : List Char → Bool
  | [] => false
  | x :: _ => x == c

def digitsVal (cs : List Char) : Nat :=
  cs.foldl (fun a c => a * 10 + (c.toNat - 48)) 0

/-- Rust `str::parse::<u32>`: optional leading `+`, decimal digits only,
value below `2^32` (overflow is a parse error). -/
def parseU32Chars (cs : List Char) : Option Nat :=
  let ds := match cs with
    | '+' :: rest => rest
    | other => other
  if ds ≠ [] ∧ ds.all Char.isDigit ∧ digitsVal ds < 2 ^ 32 then some (digitsVal ds)
  else none

/-- Rust `str::parse::<f64>` restricted to the fixed-point forms the protocol
emits (optional sign, integer digits, optional fraction digits); exponent and
non-finite forms are not modelled.  The value is exact as a rational. -/
def parseDecCore (cs : List Char) : Option ℚ :=
  match splitOnceChar '.' cs with
  | none =>
    if cs ≠ [] ∧ cs.all Char.isDigit then some (mkRat (Int.ofNat (digitsVal cs)) 1)
    else none
  | some (ip, fp) =>
    if (ip ≠ [] ∨ fp ≠ []) ∧ ip.all Char.isDigit ∧ fp.all Char.isDigit then
      some (mkRat (Int.ofNat (digitsVal ip * 10 ^ fp.length + digitsVal fp)) (10 ^ fp.length))
    else none

def parseDecimalChars (cs : List Char) : Option ℚ :=
  match cs with
  | '-' :: rest => (parseDecCore rest).map Rat.neg
  | '+' :: rest => parseDecCore rest
  | _ => parseDecCore cs

/-! ## Protocol codec (`grbl/protocol.rs`) -/

/-- `protocol::Response`. -/
inductive Response where
  | Ok
  | Error (code : Nat)
  | Alarm (code : Nat)
  | Status (raw : String)
  | Message (text : String)
  | Welcome (text : String)
  | Setting (num : Nat) (value : String)
  | Other (raw : String)
deriving DecidableEq

/-- `protocol::parse_response`: trim, then classify by prefix/shape; a prefix
with a malformed numeric payload falls through to `Other`. -/
def parse_response (line : String) : Response :=
  let l := trimChars line.data
  if l = "ok".data then Response.Ok
  else
    match (stripLead "error:".data l).bind parseU32Chars with
    | some code => Response.Error code
    | none =>
      match (stripLead "ALARM:".data l).bind parseU32Chars with
      | some code => Response.Alarm code
      | none =>
        if headIs '<' l && headIs '>' l.reverse then Response.Status ⟨l⟩
        else
          match (stripLead "[MSG:".data l).bind (stripTrail "]".data) with
          | some msg => Response.Message ⟨msg⟩
          | none =>
            if (stripLead "Grbl ".data l).isSome then Response.Welcome ⟨l⟩
            else
              match stripLead "$".data l with
              | some rest =>
                match splitOnceChar '=' rest with
                | some (num, value) =>
                  match parseU32Chars num with
                  | some n => Response.Setting n ⟨value⟩
                  | none => Response.Other ⟨l⟩
                | none => Response.Other ⟨l⟩
              | none => Response.Other ⟨l⟩

/-! ## Telemetry model (`grbl/status.rs`) -/

/-- `status::MachineState`. -/
inductive MachineState where
  | Idle
  | Run
  | Hold
  | Jog
  | Alarm
  | Door
  | Check
  | Home
  | Sleep
  | Unknown
deriving DecidableEq

/-- `MachineState::from_str`: take the text before any `:` sub-state,
unknown names map to `Unknown` (never fails). -/
def MachineState.fromStr (s : List Char) : MachineState :=
  let base := (splitChar ':' s).headD s
  if base = "Idle".data then .Idle
  else if base = "Run".data then .Run
  else if base = "Hold".data then .Hold
  else if base = "Jog".data then .Jog
  else if base = "Alarm".data then .Alarm
  else if base = "Door".data then .Door
  else if base = "Check".data then .Check
  else if base = "Home".data then .Home
  else if base = "Sleep".data then .Sleep
  else .Unknown

/-- Rust `{:?}` rendering of `MachineState`, used in controller error text. -/
def MachineState.debugName : MachineState → String
  | .Idle => "Idle"
  | .Run => "Run"
  | .Hold => "Hold"
  | .Jog => "Jog"
  | .Alarm => "Alarm"
  | .Door => "Door"
  | .Check => "Check"
  | .Home => "Home"
  | .Sleep => "Sleep"
  | .Unknown => "Unknown"

/-- `status::Position`. -/
structure Position where
  x : ℚ
  y : ℚ
  z : ℚ
deriving DecidableEq

/-- `Position::parse`: needs at least three comma-separated numbers. -/
def Position.parseChars (s : List Char) : Option Position :=
  match splitChar ',' s with
  | a :: b :: c :: _ => do
    let x ← parseDecimalChars a
    let y ← parseDecimalChars b
    let z ← parseDecimalChars c
    pure ⟨x, y, z⟩
  | _ => none

/-- `status::Overrides`. -/
structure Overrides where
  feed : Nat
  rapid : Nat
  spindle : Nat
deriving DecidableEq

/-- `status::Accessories`. -/
structure Accessories where
  spindle_cw : Bool
  spindle_ccw : Bool
  flood_coolant : Bool
  mist_coolant : Bool
deriving DecidableEq

/-- `status::parse_accessories`: presence-of-letter tests. -/
def parse_accessories (s : List Char) : Accessories :=
  ⟨s.contains 'S', s.contains 'C', s.contains 'F', s.contains 'M'⟩

/-- `status::MachineStatus`. -/
structure MachineStatus where
  state : MachineState
  machine_pos : Position
  work_pos : Option Position
  work_offset : Option Position
  feed_rate : Option ℚ
  spindle_speed : Option ℚ
  overrides : Option Overrides
  input_pins : Option String
  accessories : Option Accessories
  buffer : Option (Nat × Nat)
  line_number : Option Nat
deriving DecidableEq

/-- `MachineStatus::default()`: Idle, zero positions, all optionals unset. -/
def MachineStatus.default : MachineStatus :=
  ⟨.Idle, ⟨0, 0, 0⟩, none, none, none, none, none, none, none, none, none⟩

/-- One `KEY:value` field of a status report (the body of the parse loop). -/
def applyField (st : MachineStatus) (part : List Char) : MachineStatus :=
  match splitOnceChar ':' part with
  | none => st
  | some (key, value) =>
    if key = "MPos".data then
      { st with machine_pos := (Position.parseChars value).getD ⟨0, 0, 0⟩ }
    else if key = "WPos".data then
      { st with work_pos := Position.parseChars value }
    else if key = "WCO".data then
      { st with work_offset := Position.parseChars value }
    else if key = "FS".data then
      let vals := splitChar ',' value
      let st1 := { st with feed_rate := parseDecimalChars (vals.headD []) }
      match vals with
      | _ :: v1 :: _ => { st1 with spindle_speed := parseDecimalChars v1 }
      | _ => st1
    else if key = "F".data then
      { st with feed_rate := parseDecimalChars value }
    else if key = "Ov".data then
      match splitChar ',' value with
      | v0 :: v1 :: v2 :: _ =>
        { st with overrides := some ⟨(parseU32Chars v0).getD 100,
            (parseU32Chars v1).getD 100, (parseU32Chars v2).getD 100⟩ }
      | _ => st
    else if key = "Pn".data then
      { st with input_pins := some ⟨value⟩ }
    else if key = "A".data then
      { st with accessories := some (parse_accessories value) }
    else if key = "Bf".data then
      match splitChar ',' value with
      | v0 :: v1 :: _ =>
        match parseU32Chars v0, parseU32Chars v1 with
        | some a, some b => { st with buffer := some (a, b) }
        | _, _ => st
      | _ => st
    else if key = "Ln".data then
      { st with line_number := parseU32Chars value }
    else st

/-- The field loop of `MachineStatus::parse`: first `|` part is the state,
the rest are `KEY:value` fields. -/
def MachineStatus.parseFields (inner : List Char) : MachineStatus :=
  let parts := splitChar '|' inner
  let st0 := { MachineStatus.default with state := MachineState.fromStr (parts.headD []) }
  (parts.drop 1).foldl applyField st0

/-- The derivation step at the end of `MachineStatus::parse`: if `WPos` was
absent but `WCO` present, work position is machine position minus offset. -/
def deriveWorkPos (st : MachineStatus) : MachineStatus :=
  match st.work_pos with
  | some _ => st
  | none =>
    match st.work_offset with
    | some wco =>
      { st with work_pos := some ⟨st.machine_pos.x - wco.x,
          st.machine_pos.y - wco.y, st.machine_pos.z - wco.z⟩ }
    | none => st

/-- Strip the mandatory `<` and `>` around a status report. -/
def stripAngles (report : List Char) : Option (List Char) :=
  (stripLead "<".data report).bind (stripTrail ">".data)

/-- `MachineStatus::parse`. -/
def MachineStatus.parse (report : String) : Option MachineStatus :=
  match stripAngles report.data with
  | none => none
  | some inner => some (deriveWorkPos (MachineStatus.parseFields inner))

example : parse_response "ok" = Response.Ok := by decide
example : parse_response "error:20" = Response.Error 20 := by decide
example : parse_response "ALARM:1" = Response.Alarm 1 := by decide
example : parse_response " error:x " = Response.Other "error:x" := by decide
example : parse_response "<Idle|MPos:0.000,0.000,0.000>"
    = Response.Status "<Idle|MPos:0.000,0.000,0.000>" := by decide
example : MachineStatus.parse "<Idle|MPos:0.000,0.000,0.000|FS:0,0>"
    = some { MachineStatus.default with feed_rate := some 0, spindle_speed := some 0 } := by
  decide

example : MachineStatus.parse "<Idle|MPos:100.000,50.000,0.000|WCO:10.000,5.000,0.000>"
    = some { MachineStatus.default with
        machine_pos := ⟨100, 50, 0⟩
        work_pos := some ⟨90, 45, 0⟩
        work_offset := some ⟨10, 5, 0⟩ } := by
  with_unfolding_all decide

/-! ## Serial worker (`grbl/worker.rs`) -/

/-- Retry/timeout configuration constants of `worker.rs`. -/
def DEFAULT_RETRIES : Nat := 2

def DEFAULT_TIMEOUT_MS : Nat := 500

def STATUS_TIMEOUT_MS : Nat := 300

/-- `worker::WorkerError`. -/
inductive WorkerError where
  | OpenFailed (msg : String)
  | Io (msg : String)
  | NotConnected
  | Timeout (attempts : Nat)
  | GrblError (code : Nat)
  | Alarm (code : Nat)
  | WorkerDead
deriving DecidableEq

/-- The `thiserror` display strings of `WorkerError` (used by the controller
for `last_error`). -/
def WorkerError.toDisplay : WorkerError → String
  | .OpenFailed msg => "Failed to open port: " ++ msg
  | .Io msg => "I/O error: " ++ msg
  | .NotConnected => "Not connected"
  | .Timeout attempts => "Command timeout after " ++ toString attempts ++ " attempts"
  | .GrblError code => "GRBL error code " ++ toString code
  | .Alarm code => "GRBL alarm code " ++ toString code
  | .WorkerDead => "Worker thread not responding"

/-- Does a parsed response end the wait of `handle_send_command`?  `ok`,
`error:` and `ALARM:` do; everything else is ignored during the wait. -/
def isTerminal : Response → Bool
  | Response.Ok => true
  | Response.Error _ => true
  | Response.Alarm _ => true
  | _ => false

/-- The per-attempt wait of `handle_send_command`: classify each line read
before the timeout; the first `ok`/`error`/`ALARM` decides the attempt. -/
def scanWindow : List String → Option (Except WorkerError Unit)
  | [] => none
  | line :: rest =>
    match parse_response line with
    | Response.Ok => some (Except.ok ())
    | Response.Error code => some (Except.error (WorkerError.GrblError code))
    | Response.Alarm code => some (Except.error (WorkerError.Alarm code))
    | _ => scanWindow rest

/-- The retry loop of `handle_send_command`.  `windows n` is the list of
lines read during attempt `n + 1` before its timeout elapses (the pre-attempt
drain of stale input only discards data and logs, so the drained lines do not
appear here).  `attemptsMade` counts completed attempts; `remaining`
counts retries still allowed (`attempts > max_retries` in the source is
exactly `remaining = 0` here).  Returns the result together with the total
number of write attempts made. -/
def sendLoop (windows : Nat → List String) :
    Nat → Nat → Except WorkerError Unit × Nat
  | attemptsMade, remaining =>
    match scanWindow (windows attemptsMade) with
    | some r => (r, attemptsMade + 1)
    | none =>
      match remaining with
      | 0 => (Except.error (WorkerError.Timeout (attemptsMade + 1)), attemptsMade + 1)
      | n + 1 => sendLoop windows (attemptsMade + 1) n

/-- `SerialWorker::handle_send_command`.  The command text is written once
per attempt and does not influence the worker's control flow, which depends
only on the lines read back. -/
def handle_send_command (connected : Bool) (command : String) (max_retries : Nat)
    (windows : Nat → List String) : Except WorkerError Unit × Nat :=
  if connected then sendLoop windows 0 max_retries
  else (Except.error WorkerError.NotConnected, 0)

/-- `worker::StatusQueryResult` as declared in `worker.rs` (fields `status`,
`alarm`, `error`). -/
structure StatusQueryResult where
  status : Option MachineStatus
  alarm : Option Nat
  error : Option Nat
deriving DecidableEq

/-- The wait loop of `handle_query_status` over the lines read before the
timeout: a parseable status report returns immediately; alarm/error lines are
recorded and the wait continues; everything else is ignored.  Reaching the
end of the list is the timeout. -/
def queryLoop : List String → StatusQueryResult → StatusQueryResult
  | [], acc => acc
  | line :: rest, acc =>
    match parse_response line with
    | Response.Status report =>
      match MachineStatus.parse report with
      | some st => { acc with status := some st }
      | none => queryLoop rest acc
    | Response.Alarm code => queryLoop rest { acc with alarm := some code }
    | Response.Error code => queryLoop rest { acc with error := some code }
    | _ => queryLoop rest acc

/-- `SerialWorker::handle_query_status`: fails only when disconnected; a
timeout with no status is still a success carrying whatever was captured. -/
def handle_query_status (connected : Bool) (lines : List String) :
    Except WorkerError StatusQueryResult :=
  if connected then Except.ok (queryLoop lines ⟨none, none, none⟩)
  else Except.error WorkerError.NotConnected

/-- Modelled from the spec: the snapshot's `worker.rs` lacks the `is_fresh`
field of the status-query result and the code computing it, while
`controller.rs` (the caller, present in the snapshot) reads `result.is_fresh`.
Per §3 StatusFreshness, freshness records "whether the most recent poll
produced a live status line (true) or fell back on the timeout with no
report (false)". -/
structure StatusQueryResultF where
  status : Option MachineStatus
  alarm : Option Nat
  error : Option Nat
  is_fresh : Bool
deriving DecidableEq

/-- Modelled from the spec (see `StatusQueryResultF`): attach freshness to a
worker query result — true exactly when the poll produced a live status. -/
def withFreshness (r : StatusQueryResult) : StatusQueryResultF :=
  ⟨r.status, r.alarm, r.error, r.status.isSome⟩

/-- Status query as the controller consumes it: the source query loop plus
the spec-modelled freshness flag. -/
def query_status_fresh (connected : Bool) (lines : List String) :
    Except WorkerError StatusQueryResultF :=
  (handle_query_status connected lines).map withFreshness

/-! ## Controller (`grbl/controller.rs`)

Each controller operation is embedded as a pure state transformer.  The
worker runs on its own thread and owns the serial port, so its reply to the
one request the operation makes is passed in as an explicit argument
(`wr`); operations that send several commands take one reply per command
(`wrs`).  Command text sent to the worker does not influence the
controller's cached state, so it is not threaded through `send_command`. -/

/-- `controller::ControllerError`. -/
inductive ControllerError where
  | Serial (msg : String)
  | NotConnected
  | AlreadyConnected
  | Timeout (attempts : Nat)
  | GrblError (code : Nat)
  | Alarm (code : Nat)
  | InvalidState (reason : String)
  | Internal (msg : String)
deriving DecidableEq

/-- `impl From<WorkerError> for ControllerError`. -/
def ControllerError.fromWorker : WorkerError → ControllerError
  | .OpenFailed msg => .Serial msg
  | .Io msg => .Serial msg
  | .NotConnected => .NotConnected
  | .Timeout attempts => .Timeout attempts
  | .GrblError code => .GrblError code
  | .Alarm code => .Alarm code
  | .WorkerDead => .Internal "Worker thread not responding"

/-- `controller::ConnectionState`. -/
inductive ConnectionState where
  | Disconnected
  | Connecting
  | Connected (port : String) (baud : Nat)
  | Error (msg : String)
deriving DecidableEq

/-- `controller::ControllerState` (the mutex-protected shared state). -/
structure ControllerState where
  connection : ConnectionState
  status : MachineStatus
  last_error : Option String
  welcome_message : Option String
  pending_alarm : Option (Nat × Nat)
  alarm_id_counter : Nat
  status_is_fresh : Bool
deriving DecidableEq

/-- `ControllerState::default()`. -/
def ControllerState.default : ControllerState :=
  ⟨.Disconnected, MachineStatus.default, none, none, none, 0, false⟩

/-- `Controller::is_connected`. -/
def isConnected (s : ControllerState) : Bool :=
  match s.connection with
  | ConnectionState.Connected _ _ => true
  | _ => false

/-- `Controller::connect`: `wr` is the worker's reply (welcome banner on
success). -/
def connect (s : ControllerState) (port : String) (baud : Nat)
    (wr : Except WorkerError String) : ControllerState × Except ControllerError Unit :=
  if isConnected s then (s, Except.error ControllerError.AlreadyConnected)
  else
    let s1 := { s with
        connection := ConnectionState.Connecting
        last_error := none
        pending_alarm := none }
    match wr with
    | Except.ok welcome_msg =>
      let s2 := { s1 with connection := ConnectionState.Connected port baud }
      let s3 := if welcome_msg ≠ "" then { s2 with welcome_message := some welcome_msg }
                else s2
      (s3, Except.ok ())
    | Except.error e =>
      let msg := e.toDisplay
      ({ s1 with connection := ConnectionState.Error msg, last_error := some msg },
       Except.error (ControllerError.fromWorker e))

/-- `Controller::disconnect`: on worker failure the `?` operator propagates
without touching the cached state. -/
def disconnect (s : ControllerState) (wr : Except WorkerError Unit) :
    ControllerState × Except ControllerError Unit :=
  if isConnected s then
    match wr with
    | Except.error e => (s, Except.error (ControllerError.fromWorker e))
    | Except.ok _ =>
      ({ s with
          connection := ConnectionState.Disconnected
          status := MachineStatus.default
          welcome_message := none
          pending_alarm := none
          status_is_fresh := false },
       Except.ok ())
  else (s, Except.error ControllerError.NotConnected)

/-- `Controller::poll_status`: `wr` is the worker's status-query reply. -/
def poll_status (s : ControllerState) (wr : Except WorkerError StatusQueryResultF) :
    ControllerState × Except ControllerError MachineStatus :=
  if isConnected s then
    match wr with
    | Except.ok result =>
      let s1 := { s with status_is_fresh := result.is_fresh }
      let s2 :=
        match result.status with
        | some st =>
          let s' := { s1 with status := st }
          if result.is_fresh = true ∧ st.state ≠ MachineState.Alarm then
            { s' with pending_alarm := none }
          else s'
        | none => s1
      let s3 :=
        match result.alarm with
        | some code =>
          let shouldSet : Bool :=
            match s2.pending_alarm with
            | some (existing, _) => existing != code
            | none => true
          if shouldSet then
            { s2 with
                alarm_id_counter := s2.alarm_id_counter + 1
                pending_alarm := some (code, s2.alarm_id_counter + 1)
                last_error := some ("ALARM:" ++ toString code) }
          else s2
        | none => s2
      let s4 :=
        match result.error with
        | some code => { s3 with last_error := some ("error:" ++ toString code) }
        | none => s3
      (s4, Except.ok s4.status)
    | Except.error e =>
      ({ s with
          last_error := some e.toDisplay
          status_is_fresh := false },
       Except.error (ControllerError.fromWorker e))
  else (s, Except.error ControllerError.NotConnected)

/-- `Controller::send_command` (private helper): requires connection, maps a
worker failure into `last_error` plus the converted error. -/
def send_command (s : ControllerState) (wr : Except WorkerError Unit) :
    ControllerState × Except ControllerError Unit :=
  if isConnected s then
    match wr with
    | Except.ok _ => (s, Except.ok ())
    | Except.error e =>
      ({ s with last_error := some e.toDisplay },
       Except.error (ControllerError.fromWorker e))
  else (s, Except.error ControllerError.NotConnected)

/-- `Controller::send_realtime` (private helper): same state behaviour as
`send_command`. -/
def send_realtime (s : ControllerState) (wr : Except WorkerError Unit) :
    ControllerState × Except ControllerError Unit :=
  send_command s wr

/-- `Controller::home`: no retries and a long timeout at the worker; the
controller-side state behaviour is that of `send_command`. -/
def home (s : ControllerState) (wr : Except WorkerError Unit) :
    ControllerState × Except ControllerError Unit :=
  send_command s wr

/-- `Controller::unlock`: clears the pending alarm before sending `$X`. -/
def unlock (s : ControllerState) (wr : Except WorkerError Unit) :
    ControllerState × Except ControllerError Unit :=
  send_command { s with pending_alarm := none } wr

/-- `Controller::jog`: allowed only from the cached Idle or Jog state; the
jog command text itself does not affect the controller state. -/
def jog (s : ControllerState) (wr : Except WorkerError Unit) :
    ControllerState × Except ControllerError Unit :=
  match s.status.state with
  | MachineState.Idle => send_command s wr
  | MachineState.Jog => send_command s wr
  | other =>
    (s, Except.error (ControllerError.InvalidState
      ("Cannot jog in " ++ other.debugName ++ " state")))

/-- `Controller::soft_reset`: sends the reset byte and, on success, resets
cached status, pending alarm and freshness. -/
def soft_reset (s : ControllerState) (wr : Except WorkerError Unit) :
    ControllerState × Except ControllerError Unit :=
  match send_realtime s wr with
  | (s1, Except.ok u) =>
    ({ s1 with
        status := MachineStatus.default
        pending_alarm := none
        status_is_fresh := false }, Except.ok u)
  | (s1, Except.error e) => (s1, Except.error e)

/-! ## Frame tracing -/

/-- `f64::EPSILON`, the zero-area threshold of `run_frame`. -/
def f64Epsilon : ℚ := mkRat 1 (2 ^ 52)

/-- `f64::abs`, on the exact-rational model of `f64`. -/
def qabs (q : ℚ) : ℚ :=
  if q < 0 then Rat.neg q else q

/-- Modelled from the spec: `protocol::Units` is absent from the snapshot's
`protocol.rs` (only the `run_frame` call site mentions it).  Named
`FrameUnits` here because Mathlib already takes `Units`. -/
inductive FrameUnits where
  | Mm
  | Inch
deriving DecidableEq

/-- Modelled from the spec: `protocol::build_frame_gcode` is absent from the
snapshot's `protocol.rs` (only its call site in `Controller::run_frame`
remains).  §4.1: normalizes bounds (swap if min>max before use), then emits a
G90 absolute preamble, a laser-mode/power setup line, four G1 edge moves
tracing the rectangle perimeter back to the start corner, and a
power-off/finalize line.  Lines are modelled as a list (`gcode.lines()` at
the call site). -/
def build_frame_gcode (x_min x_max y_min y_max feed : ℚ) (power : Nat)
    (units : FrameUnits) : List String :=
  let xlo := if x_min > x_max then x_max else x_min
  let xhi := if x_min > x_max then x_min else x_max
  let ylo := if y_min > y_max then y_max else y_min
  let yhi := if y_min > y_max then y_min else y_max
  [ (match units with
     | FrameUnits.Mm => "G21"
     | FrameUnits.Inch => "G20"),
    "G90",
    "G0 X" ++ toString xlo ++ " Y" ++ toString ylo,
    "M4 S" ++ toString power,
    "G1 X" ++ toString xhi ++ " Y" ++ toString ylo ++ " F" ++ toString feed,
    "G1 X" ++ toString xhi ++ " Y" ++ toString yhi,
    "G1 X" ++ toString xlo ++ " Y" ++ toString yhi,
    "G1 X" ++ toString xlo ++ " Y" ++ toString ylo,
    "M5" ]

/-- The send loop of `Controller::run_frame`: each non-empty trimmed line is
sent as its own command (`wrs i` is the worker's reply to the i-th command);
the loop stops at the first failure.  The third component records the
commands actually handed to the worker. -/
def sendLines (wrs : Nat → Except WorkerError Unit) :
    List String → ControllerState → Nat → List String →
    ControllerState × Except ControllerError Unit × List String
  | [], s, _, sent => (s, Except.ok (), sent)
  | l :: rest, s, i, sent =>
    let t := trimChars l.data
    if t = [] then sendLines wrs rest s i sent
    else
      match send_command s (wrs i) with
      | (s', Except.ok _) => sendLines wrs rest s' (i + 1) (sent ++ [(⟨t⟩ : String) ++ "\n"])
      | (s', Except.error e) => (s', Except.error e, sent ++ [(⟨t⟩ : String) ++ "\n"])

/-- `Controller::run_frame`: connection check, zero-area bounds check
(`width < f64::EPSILON || height < f64::EPSILON`, inverted bounds being
normalized downstream), cached-Idle check, then the per-line sends. -/
def run_frame (s : ControllerState) (x_min x_max y_min y_max feed : ℚ)
    (power : Nat) (units : FrameUnits) (wrs : Nat → Except WorkerError Unit) :
    ControllerState × Except ControllerError Unit × List String :=
  if isConnected s then
    let width := qabs (x_max - x_min)
    let height := qabs (y_max - y_min)
    if width < f64Epsilon ∨ height < f64Epsilon then
      (s, Except.error (ControllerError.InvalidState
        "Frame must have non-zero width and height"), [])
    else if s.status.state ≠ MachineState.Idle then
      (s, Except.error (ControllerError.InvalidState
        ("Cannot run frame in " ++ s.status.state.debugName ++ " state")), [])
    else
      sendLines wrs (build_frame_gcode x_min x_max y_min y_max feed power units) s 0 []
  else (s, Except.error ControllerError.NotConnected, [])

/-! ## Reachable controller states

One constructor per controller operation that can mutate the cached state;
worker replies and arguments are arbitrary.  `realtime_step` covers
`jog_cancel`, `feed_hold`, `cycle_start` and the override operations, all of
which are plain `send_realtime` wrappers. -/

inductive Reachable : ControllerState → Prop
  | init : Reachable ControllerState.default
  | connect_step (s : ControllerState) (port : String) (baud : Nat)
      (wr : Except WorkerError String) :
      Reachable s → Reachable (connect s port baud wr).1
  | disconnect_step (s : ControllerState) (wr : Except WorkerError Unit) :
      Reachable s → Reachable (disconnect s wr).1
  | poll_step (s : ControllerState) (wr : Except WorkerError StatusQueryResultF) :
      Reachable s → Reachable (poll_status s wr).1
  | unlock_step (s : ControllerState) (wr : Except WorkerError Unit) :
      Reachable s → Reachable (unlock s wr).1
  | home_step (s : ControllerState) (wr : Except WorkerError Unit) :
      Reachable s → Reachable (home s wr).1
  | jog_step (s : ControllerState) (wr : Except WorkerError Unit) :
      Reachable s → Reachable (jog s wr).1
  | realtime_step (s : ControllerState) (wr : Except WorkerError Unit) :
      Reachable s → Reachable (send_realtime s wr).1
  | soft_reset_step (s : ControllerState) (wr : Except WorkerError Unit) :
      Reachable s → Reachable (soft_reset s wr).1
  | run_frame_step (s : ControllerState) (x_min x_max y_min y_max feed : ℚ) (power : Nat)
      (units : FrameUnits) (wrs : Nat → Except WorkerError Unit) :
      Reachable s → Reachable (run_frame s x_min x_max y_min y_max feed power units wrs).1



/-! ## Spec-side helpers for stating the claims -/

instance {e a : Type} [DecidableEq e] [DecidableEq a] : DecidableEq (Except e a) :=
  fun x y =>
  match x, y with
  | Except.ok u, Except.ok v =>
    if h : u = v then Decidable.isTrue (h ▸ rfl)
    else Decidable.isFalse (fun hc => h (Except.ok.inj hc))
  | Except.error u, Except.error v =>
    if h : u = v then Decidable.isTrue (h ▸ rfl)
    else Decidable.isFalse (fun hc => h (Except.error.inj hc))
  | Except.ok _, Except.error _ => Decidable.isFalse (fun hc => Except.noConfusion hc)
  | Except.error _, Except.ok _ => Decidable.isFalse (fun hc => Except.noConfusion hc)

/-- The alarm code a line contributes during a status query, if any. -/
def alarmCodeOf (line : String) : Option Nat :=
  match parse_response line with
  | Response.Alarm code => some code
  | _ => none

/-- The error code a line contributes during a status query, if any. -/
def errorCodeOf (line : String) : Option Nat :=
  match parse_response line with
  | Response.Error code => some code
  | _ => none

/-- Does a line classify as a status report that `MachineStatus::parse`
accepts?  Such a line ends a status query wait. -/
def isParseableStatus (line : String) : Bool :=
  match parse_response line with
  | Response.Status raw => (MachineStatus.parse raw).isSome
  | _ => false

/-- Left-biased choice on optional codes. -/
def oor : Option Nat → Option Nat → Option Nat
  | some a, _ => some a
  | none, b => b

/-- The last alarm code appearing in a list of lines. -/
def lastAlarm : List String → Option Nat
  | [] => none
  | l :: ls => oor (lastAlarm ls) (alarmCodeOf l)

/-- The last error code appearing in a list of lines. -/
def lastError : List String → Option Nat
  | [] => none
  | l :: ls => oor (lastError ls) (errorCodeOf l)

lemma oor_none_right (a : Option Nat) : oor a none = a := by
  cases a <;> rfl

lemma oor_oor_some (a b : Option Nat) (c : Nat) :
    oor (oor a (some c)) b = oor a (some c) := by
  cases a <;> rfl

/-! ## C1 : SendCommand timeout/retry accounting -/

lemma scanWindow_eq_none (w : List String)
    (h : ∀ l ∈ w, isTerminal (parse_response l) = false) : scanWindow w = none := by
  induction w with
  | nil => rfl
  | cons l rest ih =>
    have hl := h l (by simp)
    have hrest : ∀ x ∈ rest, isTerminal (parse_response x) = false :=
      fun x hx => h x (by simp [hx])
    cases hpr : parse_response l <;> rw [hpr] at hl
    case Ok => simp [isTerminal] at hl
    case Error code => simp [isTerminal] at hl
    case Alarm code => simp [isTerminal] at hl
    all_goals simpa [scanWindow, hpr] using ih hrest

lemma sendLoop_timeout (windows : Nat → List String)
    (h : ∀ n, scanWindow (windows n) = none) :
    ∀ remaining attemptsMade,
      sendLoop windows attemptsMade remaining
        = (Except.error (WorkerError.Timeout (attemptsMade + remaining + 1)),
           attemptsMade + remaining + 1) := by
  intro remaining
  induction remaining with
  | zero =>
    intro a
    rw [sendLoop]
    simp [h a]
  | succ n ih =>
    intro a
    rw [sendLoop]
    simp only [h a]
    rw [show a + (n + 1) + 1 = a + 1 + n + 1 by omega]
    exact ih (a + 1)

/-- C1: a `SendCommand` whose every attempt window contains no `ok`/`error`/
`ALARM` line makes exactly `retries + 1` write attempts and fails with a
timeout error carrying `attempts = retries + 1`; for `retries = 2` that is
3 attempts and `attempts = 3`. -/
theorem sendCommand_timeout_attempts (command : String) (retries : Nat)
    (windows : Nat → List String)
    (h : ∀ n, ∀ l ∈ windows n, isTerminal (parse_response l) = false) :
    handle_send_command true command retries windows
      = (Except.error (WorkerError.Timeout (retries + 1)), retries + 1) := by
  have hw : ∀ n, scanWindow (windows n) = none := fun n => scanWindow_eq_none _ (h n)
  unfold handle_send_command
  simpa using sendLoop_timeout windows hw retries 0

/-- C1 witness: with `retries = 2` and every attempt seeing only a status
line, the result is a timeout carrying `attempts = 3` after 3 writes. -/
theorem sendCommand_timeout_attempts_witness :
    handle_send_command true "G0 X0" 2 (fun _ => ["<Idle|MPos:0.000,0.000,0.000|FS:0,0>"])
      = (Except.error (WorkerError.Timeout 3), 3) :=
  sendCommand_timeout_attempts "G0 X0" 2 _
    (by
      intro n l hl
      simp only [List.mem_singleton] at hl
      subst hl
      decide)

/-! ## C2 : QueryStatus soft semantics -/

lemma queryLoop_skip (pre rest : List String) (acc : StatusQueryResult)
    (h : ∀ l ∈ pre, isParseableStatus l = false) :
    queryLoop (pre ++ rest) acc
      = queryLoop rest
          ⟨acc.status, oor (lastAlarm pre) acc.alarm, oor (lastError pre) acc.error⟩ := by
  induction pre generalizing acc with
  | nil => simp [lastAlarm, lastError, oor]
  | cons l pre ih =>
    have hl := h l (by simp)
    have hpre : ∀ x ∈ pre, isParseableStatus x = false := fun x hx => h x (by simp [hx])
    cases hpr : parse_response l with
    | Status raw =>
      cases hmp : MachineStatus.parse raw with
      | some st =>
        exfalso
        simp [isParseableStatus, hpr, hmp] at hl
      | none =>
        simp only [List.cons_append, queryLoop, hpr, hmp, List.append_eq]
        rw [ih acc hpre]
        simp [lastAlarm, lastError, alarmCodeOf, errorCodeOf, hpr, oor_none_right]
    | Alarm code =>
      simp only [List.cons_append, queryLoop, hpr, List.append_eq]
      rw [ih _ hpre]
      simp [lastAlarm, lastError, alarmCodeOf, errorCodeOf, hpr, oor_none_right,
        oor_oor_some]
    | Error code =>
      simp only [List.cons_append, queryLoop, hpr, List.append_eq]
      rw [ih _ hpre]
      simp [lastAlarm, lastError, alarmCodeOf, errorCodeOf, hpr, oor_none_right,
        oor_oor_some]
    | Ok =>
      simp only [List.cons_append, queryLoop, hpr, List.append_eq]
      rw [ih acc hpre]
      simp [lastAlarm, lastError, alarmCodeOf, errorCodeOf, hpr, oor_none_right]
    | Message text =>
      simp only [List.cons_append, queryLoop, hpr, List.append_eq]
      rw [ih acc hpre]
      simp [lastAlarm, lastError, alarmCodeOf, errorCodeOf, hpr, oor_none_right]
    | Welcome text =>
      simp only [List.cons_append, queryLoop, hpr, List.append_eq]
      rw [ih acc hpre]
      simp [lastAlarm, lastError, alarmCodeOf, errorCodeOf, hpr, oor_none_right]
    | Setting num value =>
      simp only [List.cons_append, queryLoop, hpr, List.append_eq]
      rw [ih acc hpre]
      simp [lastAlarm, lastError, alarmCodeOf, errorCodeOf, hpr, oor_none_right]
    | Other raw =>
      simp only [List.cons_append, queryLoop, hpr, List.append_eq]
      rw [ih acc hpre]
      simp [lastAlarm, lastError, alarmCodeOf, errorCodeOf, hpr, oor_none_right]

/-- C2: a status query on a connected worker always succeeds at the worker
level; alarm/error lines are recorded without ending the wait, so a timeout
with no parseable status yields a success carrying a null status and the last
alarm/error codes seen; the first parseable status line ends the wait
immediately with that status plus the codes recorded before it. -/
theorem queryStatus_soft_outcome (ls : List String) :
    (∃ r, handle_query_status true ls = Except.ok r) ∧
    ((∀ l ∈ ls, isParseableStatus l = false) →
      handle_query_status true ls = Except.ok ⟨none, lastAlarm ls, lastError ls⟩) ∧
    (∀ pre line post raw st, ls = pre ++ line :: post →
      (∀ l ∈ pre, isParseableStatus l = false) →
      parse_response line = Response.Status raw →
      MachineStatus.parse raw = some st →
      handle_query_status true ls = Except.ok ⟨some st, lastAlarm pre, lastError pre⟩) := by
  refine ⟨⟨queryLoop ls ⟨none, none, none⟩, rfl⟩, ?_, ?_⟩
  · intro h
    have hskip := queryLoop_skip ls [] ⟨none, none, none⟩ h
    rw [List.append_nil] at hskip
    unfold handle_query_status
    simp only [if_true]
    rw [hskip]
    simp [queryLoop, oor_none_right]
  · intro pre line post raw st hls hpre hpr hst
    subst hls
    unfold handle_query_status
    simp only [if_true]
    rw [queryLoop_skip pre (line :: post) ⟨none, none, none⟩ hpre]
    simp only [queryLoop, hpr, hst]
    simp [oor_none_right]

/-- C2 witness: alarm then error lines are recorded without ending the wait;
the later status line returns immediately with them. -/
theorem queryStatus_soft_outcome_witness :
    handle_query_status true ["ALARM:3", "error:9", "<Hold:0|MPos:1.500,2.000,0.000>"]
      = Except.ok ⟨some { MachineStatus.default with
          state := MachineState.Hold
          machine_pos := ⟨mkRat 3 2, 2, 0⟩ }, some 3, some 9⟩ := by
  have h := (queryStatus_soft_outcome
      ["ALARM:3", "error:9", "<Hold:0|MPos:1.500,2.000,0.000>"]).2.2
    ["ALARM:3", "error:9"] "<Hold:0|MPos:1.500,2.000,0.000>" []
    "<Hold:0|MPos:1.500,2.000,0.000>"
    { MachineStatus.default with
        state := MachineState.Hold
        machine_pos := ⟨mkRat 3 2, 2, 0⟩ }
    rfl (by decide) (by decide) (by with_unfolding_all decide)
  rw [h]
  with_unfolding_all decide

/-! ## C3 : freshness propagation -/

lemma queryLoop_isSome (ls : List String) (acc : StatusQueryResult) :
    (queryLoop ls acc).status.isSome
      = (acc.status.isSome || ls.any (fun l => isParseableStatus l)) := by
  induction ls generalizing acc with
  | nil => simp [queryLoop]
  | cons l ls ih =>
    cases hpr : parse_response l with
    | Status raw =>
      cases hmp : MachineStatus.parse raw with
      | some st => simp [queryLoop, hpr, hmp, isParseableStatus]
      | none => simp [queryLoop, hpr, hmp, ih, isParseableStatus]
    | Alarm code => simp [queryLoop, hpr, ih, isParseableStatus]
    | Error code => simp [queryLoop, hpr, ih, isParseableStatus]
    | Ok => simp [queryLoop, hpr, ih, isParseableStatus]
    | Message text => simp [queryLoop, hpr, ih, isParseableStatus]
    | Welcome text => simp [queryLoop, hpr, ih, isParseableStatus]
    | Setting num value => simp [queryLoop, hpr, ih, isParseableStatus]
    | Other raw => simp [queryLoop, hpr, ih, isParseableStatus]

lemma poll_ok_fresh (s : ControllerState) (r : StatusQueryResultF)
    (hconn : isConnected s = true) :
    (poll_status s (Except.ok r)).1.status_is_fresh = r.is_fresh := by
  obtain ⟨rst, ral, rer, rfr⟩ := r
  cases rst <;> cases ral <;> cases rer <;>
    simp [poll_status, hconn] <;> split_ifs <;> rfl

/-- C3: after a poll on a connected controller, `status_is_fresh` equals the
freshness carried by the worker's status-query result, which is true exactly
when the result contains a live status — equivalently, exactly when some
polled line was a parseable status report; a worker failure of the poll sets
the flag to false. -/
theorem pollStatus_freshness (s : ControllerState) (ls : List String)
    (e : WorkerError) (hconn : isConnected s = true) :
    (∃ r, query_status_fresh true ls = Except.ok r ∧
      r.is_fresh = r.status.isSome ∧
      (poll_status s (Except.ok r)).1.status_is_fresh = r.is_fresh ∧
      (r.is_fresh = true ↔ ∃ l ∈ ls, isParseableStatus l = true)) ∧
    (poll_status s (Except.error e)).1.status_is_fresh = false := by
  constructor
  · refine ⟨withFreshness (queryLoop ls ⟨none, none, none⟩), rfl, rfl, poll_ok_fresh s _ hconn, ?_⟩
    have h := queryLoop_isSome ls ⟨none, none, none⟩
    show (queryLoop ls ⟨none, none, none⟩).status.isSome = true ↔ _
    rw [h]
    simp [List.any_eq_true]
  · simp [poll_status, hconn]

/-- C3 witness: a worker failure of the poll marks the cache stale. -/
theorem pollStatus_freshness_witness :
    (poll_status { ControllerState.default with
        connection := ConnectionState.Connected "p" 115200 }
      (Except.error WorkerError.WorkerDead)).1.status_is_fresh = false :=
  (pollStatus_freshness
    { ControllerState.default with connection := ConnectionState.Connected "p" 115200 }
    ["<Idle|MPos:0.000,0.000,0.000|FS:0,0>"] WorkerError.WorkerDead rfl).2

/-! ## C4 : cache update and alarm clearing on poll -/

/-- C4: when a poll on a connected controller returns a status, the cached
status is replaced by it; the pending alarm is cleared when the poll is fresh
and the new state is not Alarm (and no alarm line accompanied the poll); a
stale poll, or one whose new state is Alarm, never clears a pending alarm. -/
theorem pollStatus_alarm_clearing (s : ControllerState) (r : StatusQueryResultF)
    (st : MachineStatus) (hconn : isConnected s = true) (hst : r.status = some st) :
    (poll_status s (Except.ok r)).1.status = st ∧
    (r.is_fresh = true → st.state ≠ MachineState.Alarm → r.alarm = none →
      (poll_status s (Except.ok r)).1.pending_alarm = none) ∧
    ((r.is_fresh = false ∨ st.state = MachineState.Alarm) →
      s.pending_alarm.isSome = true →
      (poll_status s (Except.ok r)).1.pending_alarm.isSome = true) := by
  obtain ⟨rst, ral, rer, rfr⟩ := r
  simp only at hst
  subst hst
  refine ⟨?_, ?_, ?_⟩
  · cases ral <;> cases rer <;>
      simp [poll_status, hconn] <;> split_ifs <;> rfl
  · intro hfr hstate halarm
    simp only at hfr halarm
    subst hfr
    subst halarm
    cases rer <;> simp [poll_status, hconn, hstate]
  · intro hcase hpend
    simp only at hcase
    cases ral with
    | none =>
      rcases hcase with hf | ha
      · subst hf
        cases rer <;> simp [poll_status, hconn, hpend]
      · cases rer <;> simp [poll_status, hconn, ha, hpend]
    | some code =>
      rcases hcase with hf | ha
      · subst hf
        cases rer <;> simp [poll_status, hconn] <;> split_ifs <;> simp [hpend]
      · cases rer <;> simp [poll_status, hconn, ha] <;> split_ifs <;> simp [hpend]

/-- C4 witness: a fresh Idle poll with no alarm line clears the pending alarm
and replaces the cached status. -/
theorem pollStatus_alarm_clearing_witness :
    (poll_status { ControllerState.default with
        connection := ConnectionState.Connected "p" 115200
        pending_alarm := some (1, 1)
        alarm_id_counter := 1 }
      (Except.ok ⟨some MachineStatus.default, none, none, true⟩)).1.pending_alarm = none ∧
    (poll_status { ControllerState.default with
        connection := ConnectionState.Connected "p" 115200
        pending_alarm := some (1, 1)
        alarm_id_counter := 1 }
      (Except.ok ⟨some MachineStatus.default, none, none, true⟩)).1.status
      = MachineStatus.default := by
  have h := pollStatus_alarm_clearing
    { ControllerState.default with
        connection := ConnectionState.Connected "p" 115200
        pending_alarm := some (1, 1)
        alarm_id_counter := 1 }
    ⟨some MachineStatus.default, none, none, true⟩ MachineStatus.default rfl rfl
  exact ⟨h.2.1 rfl (by decide) rfl, h.1⟩

/-! ## C5 : alarm id deduplication -/

lemma poll_connection (s : ControllerState) (wr : Except WorkerError StatusQueryResultF) :
    (poll_status s wr).1.connection = s.connection := by
  by_cases h : isConnected s = true
  · cases wr with
    | error e => simp [poll_status, h]
    | ok r =>
      obtain ⟨rst, ral, rer, rfr⟩ := r
      cases rst <;> cases ral <;> cases rer <;>
        simp [poll_status, h] <;> split_ifs <;> rfl
  · have h2 : isConnected s = false := by simpa using h
    simp [poll_status, h2]

lemma isConnected_congr (s1 s2 : ControllerState) (h : s1.connection = s2.connection) :
    isConnected s1 = isConnected s2 := by
  unfold isConnected
  rw [h]

lemma poll_alarm_code (s : ControllerState) (r : StatusQueryResultF) (c : Nat)
    (hconn : isConnected s = true) (hal : r.alarm = some c) :
    ∃ n, (poll_status s (Except.ok r)).1.pending_alarm = some (c, n) := by
  obtain ⟨rst, ral, rer, rfr⟩ := r
  simp only at hal
  subst hal
  cases hp : s.pending_alarm with
  | none =>
    cases rst <;> cases rer <;> simp [poll_status, hconn, hp] <;> split_ifs <;>
      first
        | exact ⟨_, rfl⟩
        | simp_all
  | some p =>
    obtain ⟨e, id⟩ := p
    by_cases hec : e = c
    · subst hec
      cases rst <;> cases rer <;> simp [poll_status, hconn, hp] <;> split_ifs <;>
        first
          | exact ⟨_, rfl⟩
          | simp_all
    · have hbne : (e != c) = true := by simpa using hec
      cases rst <;> cases rer <;> simp [poll_status, hconn, hp, hbne] <;> split_ifs <;>
        first
          | exact ⟨_, rfl⟩
          | simp_all

/-- C5 (amended): two consecutive polls reporting the same alarm code leave
the pending alarm (and its id) unchanged, provided the second poll does not
also carry a fresh status in a non-Alarm state (such a poll clears the
pending alarm before deduplication and then mints a fresh id for the
re-reported code); a poll reporting an alarm whose code differs from the
currently pending one, or arriving with none pending, mints the freshly
incremented counter as the new id, which strictly exceeds any id minted
earlier. -/
theorem pollStatus_alarm_id_dedup :
    (∀ (s : ControllerState) (r1 r2 : StatusQueryResultF) (c : Nat),
      isConnected s = true → r1.alarm = some c → r2.alarm = some c →
      (∀ st, r2.status = some st → r2.is_fresh = false ∨ st.state = MachineState.Alarm) →
      (poll_status (poll_status s (Except.ok r1)).1 (Except.ok r2)).1.pending_alarm
        = (poll_status s (Except.ok r1)).1.pending_alarm) ∧
    (∀ (s : ControllerState) (r : StatusQueryResultF) (c : Nat),
      isConnected s = true → r.alarm = some c →
      (∀ id, s.pending_alarm ≠ some (c, id)) →
      (poll_status s (Except.ok r)).1.pending_alarm = some (c, s.alarm_id_counter + 1) ∧
      (poll_status s (Except.ok r)).1.alarm_id_counter = s.alarm_id_counter + 1 ∧
      (∀ c0 id0, s.pending_alarm = some (c0, id0) → id0 ≤ s.alarm_id_counter →
        id0 < s.alarm_id_counter + 1)) := by
  constructor
  · intro s r1 r2 c hconn h1 h2 hno
    obtain ⟨n, hp1⟩ := poll_alarm_code s r1 c hconn h1
    have hconn1 : isConnected (poll_status s (Except.ok r1)).1 = true := by
      rw [isConnected_congr _ s (poll_connection s (Except.ok r1))]
      exact hconn
    set s1 := (poll_status s (Except.ok r1)).1 with hs1
    obtain ⟨rst2, ral2, rer2, rfr2⟩ := r2
    simp only at h2
    subst h2
    cases rst2 with
    | none =>
      cases rer2 <;> simp [poll_status, hconn1, hp1]
    | some st =>
      rcases hno st rfl with hf | ha
      · simp only at hf
        subst hf
        cases rer2 <;> simp [poll_status, hconn1, hp1]
      · cases rer2 <;> simp [poll_status, hconn1, hp1, ha]
  · intro s r c hconn hal hdiff
    refine ⟨?_, ?_, fun c0 id0 _ hle => by omega⟩ <;>
    · obtain ⟨rst, ral, rer, rfr⟩ := r
      simp only at hal
      subst hal
      cases hp : s.pending_alarm with
      | none =>
        cases rst <;> cases rer <;> simp [poll_status, hconn, hp] <;> split_ifs <;>
          first
            | rfl
            | simp_all
      | some p =>
        obtain ⟨e, id⟩ := p
        have hec : e ≠ c := by
          intro hec
          subst hec
          exact hdiff id hp
        have hbne : (e != c) = true := by simpa using hec
        cases rst <;> cases rer <;> simp [poll_status, hconn, hp, hbne] <;> split_ifs <;>
          first
            | rfl
            | simp_all

/-- C5 witness: with no alarm pending, a poll reporting alarm code 5 mints
id 1; a second identical poll carrying no status leaves the pending pair
unchanged. -/
theorem pollStatus_alarm_id_dedup_witness :
    (poll_status (poll_status { ControllerState.default with
          connection := ConnectionState.Connected "p" 115200 }
        (Except.ok ⟨none, some 5, none, false⟩)).1
      (Except.ok ⟨none, some 5, none, false⟩)).1.pending_alarm
      = (poll_status { ControllerState.default with
          connection := ConnectionState.Connected "p" 115200 }
        (Except.ok ⟨none, some 5, none, false⟩)).1.pending_alarm ∧
    (poll_status { ControllerState.default with
        connection := ConnectionState.Connected "p" 115200 }
      (Except.ok ⟨none, some 5, none, false⟩)).1.pending_alarm = some (5, 1) := by
  constructor
  · exact pollStatus_alarm_id_dedup.1
      { ControllerState.default with connection := ConnectionState.Connected "p" 115200 }
      ⟨none, some 5, none, false⟩ ⟨none, some 5, none, false⟩ 5 rfl rfl rfl
      (fun st hst => by simp at hst)
  · exact (pollStatus_alarm_id_dedup.2
      { ControllerState.default with connection := ConnectionState.Connected "p" 115200 }
      ⟨none, some 5, none, false⟩ 5 rfl rfl
      (fun id h => Option.noConfusion h)).1

/-- C5 counterexample: both polls report alarm code 1, yet the second poll —
which also carries a fresh Idle status — first clears the pending alarm and
then mints a new id: the id changes from 1 to 2, refuting the unconditional
claim. -/
theorem pollStatus_same_alarm_id_cex :
    query_status_fresh true ["ALARM:1"]
      = Except.ok ⟨none, some 1, none, false⟩ ∧
    query_status_fresh true ["ALARM:1", "<Idle|MPos:0.000,0.000,0.000>"]
      = Except.ok ⟨some MachineStatus.default, some 1, none, true⟩ ∧
    (poll_status { ControllerState.default with
        connection := ConnectionState.Connected "p" 115200 }
      (Except.ok ⟨none, some 1, none, false⟩)).1.pending_alarm = some (1, 1) ∧
    (poll_status (poll_status { ControllerState.default with
          connection := ConnectionState.Connected "p" 115200 }
        (Except.ok ⟨none, some 1, none, false⟩)).1
      (Except.ok ⟨some MachineStatus.default, some 1, none, true⟩)).1.pending_alarm
      = some (1, 2) := by
  refine ⟨by with_unfolding_all decide, by with_unfolding_all decide,
    by with_unfolding_all decide, by with_unfolding_all decide⟩

/-! ## C6 : pending-alarm lifecycle across operations -/

lemma send_command_fields (s : ControllerState) (wr : Except WorkerError Unit) :
    (send_command s wr).1.connection = s.connection ∧
    (send_command s wr).1.status = s.status ∧
    (send_command s wr).1.pending_alarm = s.pending_alarm := by
  by_cases h : isConnected s = true
  · cases wr <;> simp [send_command, h]
  · have h2 : isConnected s = false := by simpa using h
    simp [send_command, h2]

lemma sendLines_fields (wrs : Nat → Except WorkerError Unit) :
    ∀ (lines : List String) (s : ControllerState) (i : Nat) (sent : List String),
      (sendLines wrs lines s i sent).1.connection = s.connection ∧
      (sendLines wrs lines s i sent).1.status = s.status ∧
      (sendLines wrs lines s i sent).1.pending_alarm = s.pending_alarm := by
  intro lines
  induction lines with
  | nil =>
    intro s i sent
    simp [sendLines]
  | cons l rest ih =>
    intro s i sent
    by_cases ht : trimChars l.data = []
    · simpa [sendLines, ht] using ih s i sent
    · have hsf := send_command_fields s (wrs i)
      rcases hsc : send_command s (wrs i) with ⟨s', res⟩
      rw [hsc] at hsf
      cases res with
      | ok u =>
        have hrec := ih s' (i + 1) (sent ++ [(⟨trimChars l.data⟩ : String) ++ "\n"])
        simp only [sendLines, ht, if_false, hsc]
        refine ⟨?_, ?_, ?_⟩
        · rw [hrec.1, hsf.1]
        · rw [hrec.2.1, hsf.2.1]
        · rw [hrec.2.2, hsf.2.2]
      | error e =>
        simp only [sendLines, ht, if_false, hsc]
        exact hsf

/-- C6: the pending alarm is cleared by unlock (even before the command is
sent), by a successful disconnect, and by a successful soft reset; a command
send that meets an alarm line fails at once — the worker reports the device
alarm after a single write, and the controller surfaces `Alarm` touching only
`last_error` — with the pending alarm unchanged; and no operation other than
`poll_status` ever sets a pending alarm: each either preserves it or clears
it. -/
theorem pendingAlarm_lifecycle :
    (∀ (s : ControllerState) (wr : Except WorkerError Unit),
      (unlock s wr).1.pending_alarm = none) ∧
    (∀ s : ControllerState, isConnected s = true →
      (disconnect s (Except.ok ())).1.pending_alarm = none) ∧
    (∀ s : ControllerState, isConnected s = true →
      (soft_reset s (Except.ok ())).1.pending_alarm = none) ∧
    (∀ (cmd : String) (retries : Nat) (windows : Nat → List String) (c : Nat)
        (rest : List String) (l : String),
      windows 0 = l :: rest → parse_response l = Response.Alarm c →
      handle_send_command true cmd retries windows
        = (Except.error (WorkerError.Alarm c), 1)) ∧
    (∀ (s : ControllerState) (c : Nat), isConnected s = true →
      send_command s (Except.error (WorkerError.Alarm c))
        = ({ s with last_error := some ("GRBL alarm code " ++ toString c) },
           Except.error (ControllerError.Alarm c))) ∧
    (∀ (s : ControllerState) (port : String) (baud : Nat) (wr : Except WorkerError String),
      (connect s port baud wr).1.pending_alarm = none ∨
      (connect s port baud wr).1.pending_alarm = s.pending_alarm) ∧
    (∀ (s : ControllerState) (wr : Except WorkerError Unit),
      (disconnect s wr).1.pending_alarm = none ∨
      (disconnect s wr).1.pending_alarm = s.pending_alarm) ∧
    (∀ (s : ControllerState) (wr : Except WorkerError Unit),
      (home s wr).1.pending_alarm = s.pending_alarm) ∧
    (∀ (s : ControllerState) (wr : Except WorkerError Unit),
      (jog s wr).1.pending_alarm = s.pending_alarm) ∧
    (∀ (s : ControllerState) (wr : Except WorkerError Unit),
      (send_realtime s wr).1.pending_alarm = s.pending_alarm) ∧
    (∀ (s : ControllerState) (wr : Except WorkerError Unit),
      (soft_reset s wr).1.pending_alarm = none ∨
      (soft_reset s wr).1.pending_alarm = s.pending_alarm) ∧
    (∀ (s : ControllerState) (a b c2 d f : ℚ) (p : Nat) (u : FrameUnits)
        (wrs : Nat → Except WorkerError Unit),
      (run_frame s a b c2 d f p u wrs).1.pending_alarm = s.pending_alarm) := by
  refine ⟨?_, ?_, ?_, ?_, ?_, ?_, ?_, ?_, ?_, ?_, ?_, ?_⟩
  · intro s wr
    exact (send_command_fields { s with pending_alarm := none } wr).2.2
  · intro s h
    simp [disconnect, h]
  · intro s h
    simp [soft_reset, send_realtime, send_command, h]
  · intro cmd retries windows c rest l hw hpr
    have hdef : handle_send_command true cmd retries windows
        = sendLoop windows 0 retries := rfl
    rw [hdef]
    cases retries with
    | zero =>
      rw [sendLoop, hw]
      simp [scanWindow, hpr]
    | succ n =>
      rw [sendLoop, hw]
      simp [scanWindow, hpr]
  · intro s c h
    simp [send_command, h, WorkerError.toDisplay, ControllerError.fromWorker]
  · intro s port baud wr
    by_cases h : isConnected s = true
    · right
      simp [connect, h]
    · left
      have h2 : isConnected s = false := by simpa using h
      cases wr <;> simp [connect, h2] <;> split_ifs <;> rfl
  · intro s wr
    by_cases h : isConnected s = true
    · cases wr with
      | ok u => left; simp [disconnect, h]
      | error e => right; simp [disconnect, h]
    · right
      have h2 : isConnected s = false := by simpa using h
      simp [disconnect, h2]
  · intro s wr
    exact (send_command_fields s wr).2.2
  · intro s wr
    cases hst : s.status.state <;>
      simp [jog, hst, (send_command_fields s wr).2.2]
  · intro s wr
    exact (send_command_fields s wr).2.2
  · intro s wr
    by_cases h : isConnected s = true
    · cases wr with
      | ok u => left; simp [soft_reset, send_realtime, send_command, h]
      | error e => right; simp [soft_reset, send_realtime, send_command, h]
    · right
      have h2 : isConnected s = false := by simpa using h
      simp [soft_reset, send_realtime, send_command, h2]
  · intro s a b c2 d f p u wrs
    by_cases h : isConnected s = true
    · simp only [run_frame, h, if_true]
      split_ifs <;> simp [(sendLines_fields wrs _ s 0 []).2.2]
    · have h2 : isConnected s = false := by simpa using h
      simp [run_frame, h2]

/-- C6 witness: a concrete connected state with a pending alarm — unlock,
disconnect and soft reset clear it; a command send meeting alarm 1 fails with
the device-alarm error and leaves it untouched. -/
theorem pendingAlarm_lifecycle_witness :
    (unlock { ControllerState.default with
        connection := ConnectionState.Connected "p" 115200
        pending_alarm := some (7, 3)
        alarm_id_counter := 3 } (Except.ok ())).1.pending_alarm = none ∧
    (disconnect { ControllerState.default with
        connection := ConnectionState.Connected "p" 115200
        pending_alarm := some (7, 3)
        alarm_id_counter := 3 } (Except.ok ())).1.pending_alarm = none ∧
    (soft_reset { ControllerState.default with
        connection := ConnectionState.Connected "p" 115200
        pending_alarm := some (7, 3)
        alarm_id_counter := 3 } (Except.ok ())).1.pending_alarm = none ∧
    (send_command { ControllerState.default with
        connection := ConnectionState.Connected "p" 115200
        pending_alarm := some (7, 3)
        alarm_id_counter := 3 } (Except.error (WorkerError.Alarm 1))).1.pending_alarm
      = some (7, 3) ∧
    handle_send_command true "$X" 2 (fun _ => ["ALARM:1"])
      = (Except.error (WorkerError.Alarm 1), 1) := by
  refine ⟨pendingAlarm_lifecycle.1 _ _, pendingAlarm_lifecycle.2.1 _ rfl,
    pendingAlarm_lifecycle.2.2.1 _ rfl, ?_, ?_⟩
  · have h := pendingAlarm_lifecycle.2.2.2.2.1
      { ControllerState.default with
          connection := ConnectionState.Connected "p" 115200
          pending_alarm := some (7, 3)
          alarm_id_counter := 3 } 1 rfl
    rw [h]
  · exact pendingAlarm_lifecycle.2.2.2.1 "$X" 2 _ 1 [] "ALARM:1" rfl (by decide)

/-! ## C7 : work position derived from WCO -/

/-- C7: whenever the parsed fields of a status report leave the work position
unset (no usable `WPos` field) but carry a work offset, `MachineStatus::parse`
returns the fields with the work position set to machine position minus the
offset, component-wise. -/
theorem machineStatus_wco_derivation :
    ∀ (report : String) (inner : List Char) (w : Position),
      stripAngles report.data = some inner →
      (MachineStatus.parseFields inner).work_pos = none →
      (MachineStatus.parseFields inner).work_offset = some w →
      MachineStatus.parse report
        = some { MachineStatus.parseFields inner with
            work_pos := some ⟨(MachineStatus.parseFields inner).machine_pos.x - w.x,
              (MachineStatus.parseFields inner).machine_pos.y - w.y,
              (MachineStatus.parseFields inner).machine_pos.z - w.z⟩ } := by
  intro report inner w h1 h2 h3
  unfold MachineStatus.parse
  rw [h1]
  unfold deriveWorkPos
  simp only [h2, h3]

/-- C7 witness: the spec's example report derives `work_pos = (90, 45, 0)`. -/
theorem machineStatus_wco_derivation_witness :
    MachineStatus.parse "<Idle|MPos:100.000,50.000,0.000|WCO:10.000,5.000,0.000>"
      = some { MachineStatus.default with
          machine_pos := ⟨100, 50, 0⟩
          work_pos := some ⟨90, 45, 0⟩
          work_offset := some ⟨10, 5, 0⟩ } := by
  have h := machineStatus_wco_derivation
    "<Idle|MPos:100.000,50.000,0.000|WCO:10.000,5.000,0.000>"
    ("Idle|MPos:100.000,50.000,0.000|WCO:10.000,5.000,0.000".data) ⟨10, 5, 0⟩
    (by with_unfolding_all decide) (by with_unfolding_all decide)
    (by with_unfolding_all decide)
  rw [h]
  with_unfolding_all decide

/-! ## C8 : frame G-code invariant under bound swapping -/

lemma swap_norm_lo (a b : ℚ) : (if a > b then b else a) = (if b > a then a else b) := by
  split_ifs <;> linarith

lemma swap_norm_hi (a b : ℚ) : (if a > b then a else b) = (if b > a then b else a) := by
  split_ifs <;> linarith

/-- C8: `build_frame_gcode` normalizes its bounds, so its output is invariant
under swapping `x_min` with `x_max`, under swapping `y_min` with `y_max`, and
under both swaps at once. -/
theorem buildFrame_swap_invariant (x_min x_max y_min y_max feed : ℚ)
    (power : Nat) (units : FrameUnits) :
    build_frame_gcode x_min x_max y_min y_max feed power units
      = build_frame_gcode x_max x_min y_min y_max feed power units ∧
    build_frame_gcode x_min x_max y_min y_max feed power units
      = build_frame_gcode x_min x_max y_max y_min feed power units ∧
    build_frame_gcode x_min x_max y_min y_max feed power units
      = build_frame_gcode x_max x_min y_max y_min feed power units := by
  refine ⟨?_, ?_, ?_⟩ <;>
    simp only [build_frame_gcode] <;>
    rw [swap_norm_lo x_min x_max, swap_norm_hi x_min x_max,
        swap_norm_lo y_min y_max, swap_norm_hi y_min y_max]

/-! ## C9 : run_frame bounds validation -/

lemma f64Epsilon_pos : (0 : ℚ) < f64Epsilon := by
  with_unfolding_all decide

lemma fromWorker_ne_invalid (e : WorkerError) (msg : String) :
    ControllerError.fromWorker e ≠ ControllerError.InvalidState msg := by
  cases e <;> simp [ControllerError.fromWorker]

lemma send_command_result (s : ControllerState) (wr : Except WorkerError Unit) :
    (send_command s wr).2 = Except.ok () ∨
    ∃ e, (send_command s wr).2 = Except.error (ControllerError.fromWorker e) := by
  by_cases h : isConnected s = true
  · cases wr with
    | ok u => left; simp [send_command, h]
    | error e => right; exact ⟨e, by simp [send_command, h]⟩
  · right
    refine ⟨WorkerError.NotConnected, ?_⟩
    have h2 : isConnected s = false := by simpa using h
    simp [send_command, h2, ControllerError.fromWorker]

lemma sendLines_result (wrs : Nat → Except WorkerError Unit) :
    ∀ (lines : List String) (s : ControllerState) (i : Nat) (sent : List String),
      (sendLines wrs lines s i sent).2.1 = Except.ok () ∨
      ∃ e, (sendLines wrs lines s i sent).2.1
        = Except.error (ControllerError.fromWorker e) := by
  intro lines
  induction lines with
  | nil =>
    intro s i sent
    left
    rfl
  | cons l rest ih =>
    intro s i sent
    by_cases ht : trimChars l.data = []
    · simpa [sendLines, ht] using ih s i sent
    · have hres := send_command_result s (wrs i)
      rcases hsc : send_command s (wrs i) with ⟨s', res⟩
      rw [hsc] at hres
      simp only at hres
      cases res with
      | ok u =>
        simp only [sendLines, ht, if_false, hsc]
        exact ih s' (i + 1) _
      | error ce =>
        simp only [sendLines, ht, if_false, hsc]
        rcases hres with h1 | ⟨e, he⟩
        · exact absurd h1 (by simp)
        · exact Or.inr ⟨e, he⟩

/-- C9 (amended): on a connected controller, `run_frame` with `x_min = x_max`
or `y_min = y_max` fails with the invalid-state bounds error before any
command is sent; the bounds rejection happens exactly when the frame's width
or height is below `f64::EPSILON` — all zero-area frames are rejected, and
inverted bounds are accepted whenever both dimensions reach the epsilon
threshold. -/
theorem runFrame_zero_area (s : ControllerState) (x_min x_max y_min y_max feed : ℚ)
    (power : Nat) (units : FrameUnits) (wrs : Nat → Except WorkerError Unit)
    (hconn : isConnected s = true) :
    ((x_min = x_max ∨ y_min = y_max) →
      run_frame s x_min x_max y_min y_max feed power units wrs
        = (s, Except.error (ControllerError.InvalidState
            "Frame must have non-zero width and height"), [])) ∧
    ((run_frame s x_min x_max y_min y_max feed power units wrs).2.1
        = Except.error (ControllerError.InvalidState
            "Frame must have non-zero width and height")
      ↔ (qabs (x_max - x_min) < f64Epsilon ∨ qabs (y_max - y_min) < f64Epsilon)) := by
  constructor
  · intro hzero
    have hw : qabs (x_max - x_min) < f64Epsilon ∨ qabs (y_max - y_min) < f64Epsilon := by
      rcases hzero with h | h
      · left
        rw [h, sub_self]
        simpa [qabs] using f64Epsilon_pos
      · right
        rw [h, sub_self]
        simpa [qabs] using f64Epsilon_pos
    simp only [run_frame, hconn, if_true]
    rw [if_pos hw]
  · by_cases hb : qabs (x_max - x_min) < f64Epsilon ∨ qabs (y_max - y_min) < f64Epsilon
    · constructor
      · intro _
        exact hb
      · intro _
        simp only [run_frame, hconn, if_true]
        rw [if_pos hb]
    · constructor
      · intro hres
        exfalso
        rw [run_frame] at hres
        rw [if_pos hconn, if_neg hb] at hres
        by_cases hidle : s.status.state = MachineState.Idle
        · rw [if_neg (by simp [hidle])] at hres
          rcases sendLines_result wrs
              (build_frame_gcode x_min x_max y_min y_max feed power units) s 0 [] with
            h1 | ⟨e, he⟩
          · rw [hres] at h1
            exact Except.noConfusion h1
          · rw [hres] at he
            exact fromWorker_ne_invalid e _ (Except.error.inj he).symm
        · rw [if_pos (by simp [hidle])] at hres
          simp only at hres
          have hmsg := (ControllerError.InvalidState.inj (Except.error.inj hres))
          cases hst : s.status.state <;> rw [hst] at hmsg <;>
            first
              | (exact hidle hst)
              | (simp [MachineState.debugName] at hmsg)
      · intro h
        exact absurd h hb

/-- C9 witness: with equal x bounds the bounds error is returned with no
command sent. -/
theorem runFrame_zero_area_witness :
    run_frame { ControllerState.default with
        connection := ConnectionState.Connected "p" 115200 }
      3 3 0 10 100 10 FrameUnits.Mm (fun _ => Except.ok ())
      = ({ ControllerState.default with
           connection := ConnectionState.Connected "p" 115200 },
         Except.error (ControllerError.InvalidState
           "Frame must have non-zero width and height"), []) :=
  (runFrame_zero_area { ControllerState.default with
      connection := ConnectionState.Connected "p" 115200 }
    3 3 0 10 100 10 FrameUnits.Mm (fun _ => Except.ok ()) rfl).1 (Or.inl rfl)

/-- The Neg instance on ℚ is `Rat.neg`. -/
lemma rat_neg_eq (q : ℚ) : Rat.neg q = -q := rfl

lemma qabs_eq_abs (q : ℚ) : qabs q = |q| := by
  unfold qabs
  split_ifs with h
  · rw [rat_neg_eq]
    exact (abs_of_neg h).symm
  · exact (abs_of_nonneg (not_lt.mp h)).symm

lemma cex_width_lt : qabs ((0 : ℚ) - mkRat 1 (2 ^ 60)) < f64Epsilon := by
  rw [qabs_eq_abs]
  unfold f64Epsilon
  rw [Rat.mkRat_eq_divInt, Rat.mkRat_eq_divInt, Rat.divInt_eq_div, Rat.divInt_eq_div]
  rw [zero_sub, abs_neg, abs_of_nonneg (by positivity)]
  push_cast
  norm_num

/-- C9 counterexample: inverted x bounds (`x_min = 2⁻⁶⁰ > 0 = x_max`) give a
frame of non-zero area, yet `run_frame` rejects it because the width is below
`f64::EPSILON` — refuting "inverted bounds are accepted and only zero-area
frames are rejected". -/
theorem runFrame_inverted_epsilon_cex :
    run_frame { ControllerState.default with
        connection := ConnectionState.Connected "p" 115200 }
      (mkRat 1 (2 ^ 60)) 0 0 10 100 10 FrameUnits.Mm (fun _ => Except.ok ())
      = ({ ControllerState.default with
           connection := ConnectionState.Connected "p" 115200 },
         Except.error (ControllerError.InvalidState
           "Frame must have non-zero width and height"), []) ∧
    (0 : ℚ) < mkRat 1 (2 ^ 60) := by
  constructor
  · simp only [run_frame]
    rw [if_pos (show isConnected { ControllerState.default with
        connection := ConnectionState.Connected "p" 115200 } = true from rfl)]
    rw [if_pos (Or.inl cex_width_lt)]
  · rw [Rat.mkRat_eq_divInt, Rat.divInt_eq_div]
    positivity

/-! ## C10 : cached state is zeroed whenever not connected -/

lemma jog_fields (s : ControllerState) (wr : Except WorkerError Unit) :
    (jog s wr).1.connection = s.connection ∧
    (jog s wr).1.status = s.status ∧
    (jog s wr).1.pending_alarm = s.pending_alarm := by
  cases hst : s.status.state <;>
    simp [jog, hst, send_command_fields s wr]

lemma run_frame_fields (s : ControllerState) (a b c d f : ℚ) (p : Nat)
    (u : FrameUnits) (wrs : Nat → Except WorkerError Unit) :
    (run_frame s a b c d f p u wrs).1.connection = s.connection ∧
    (run_frame s a b c d f p u wrs).1.status = s.status ∧
    (run_frame s a b c d f p u wrs).1.pending_alarm = s.pending_alarm := by
  by_cases h : isConnected s = true
  · simp only [run_frame, h, if_true]
    split_ifs <;>
      simp [sendLines_fields wrs (build_frame_gcode a b c d f p u) s 0 []]
  · have h2 : isConnected s = false := by simpa using h
    simp [run_frame, h2]

/-- C10: from the initial state, under every sequence of controller
operations, whenever the connection is not `Connected` the cached machine
status is the zeroed default and no alarm is pending. -/
theorem controller_invariant (s : ControllerState) (hr : Reachable s)
    (hnc : isConnected s = false) :
    s.status = MachineStatus.default ∧ s.pending_alarm = none := by
  revert hnc
  induction hr with
  | init =>
    intro _
    exact ⟨rfl, rfl⟩
  | connect_step s0 port baud wr hr ih =>
    intro hnc'
    by_cases h : isConnected s0 = true
    · rw [show (connect s0 port baud wr).1 = s0 by simp [connect, h]] at hnc'
      rw [h] at hnc'
      cases hnc'
    · have h2 : isConnected s0 = false := by simpa using h
      obtain ⟨hst, hpd⟩ := ih h2
      cases wr with
      | ok w =>
        have hc : isConnected (connect s0 port baud (Except.ok w)).1 = true := by
          simp only [connect, h2, Bool.false_eq_true, if_false]
          split_ifs <;> rfl
        rw [hc] at hnc'
        cases hnc'
      | error e =>
        constructor <;> simp [connect, h2, hst, hpd]
  | disconnect_step s0 wr hr ih =>
    intro hnc'
    by_cases h : isConnected s0 = true
    · cases wr with
      | ok u => constructor <;> simp [disconnect, h]
      | error e =>
        rw [show (disconnect s0 (Except.error e)).1 = s0 by simp [disconnect, h]] at hnc'
        rw [h] at hnc'
        cases hnc'
    · have h2 : isConnected s0 = false := by simpa using h
      rw [show (disconnect s0 wr).1 = s0 by simp [disconnect, h2]] at hnc' ⊢
      exact ih h2
  | poll_step s0 wr hr ih =>
    intro hnc'
    by_cases h : isConnected s0 = true
    · have hc : isConnected (poll_status s0 wr).1 = true := by
        rw [isConnected_congr _ _ (poll_connection s0 wr)]
        exact h
      rw [hc] at hnc'
      cases hnc'
    · have h2 : isConnected s0 = false := by simpa using h
      rw [show (poll_status s0 wr).1 = s0 by simp [poll_status, h2]] at hnc' ⊢
      exact ih h2
  | unlock_step s0 wr hr ih =>
    intro hnc'
    have hf := send_command_fields { s0 with pending_alarm := none } wr
    have hc : isConnected (unlock s0 wr).1 = isConnected s0 :=
      isConnected_congr _ _ hf.1
    rw [hc] at hnc'
    refine ⟨?_, ?_⟩
    · have h1 : (unlock s0 wr).1.status = s0.status := hf.2.1
      rw [h1]
      exact (ih hnc').1
    · exact hf.2.2
  | home_step s0 wr hr ih =>
    intro hnc'
    have hf := send_command_fields s0 wr
    have hc : isConnected (home s0 wr).1 = isConnected s0 :=
      isConnected_congr _ _ hf.1
    rw [hc] at hnc'
    obtain ⟨h1, h2⟩ := ih hnc'
    exact ⟨hf.2.1.trans h1, hf.2.2.trans h2⟩
  | jog_step s0 wr hr ih =>
    intro hnc'
    have hf := jog_fields s0 wr
    have hc : isConnected (jog s0 wr).1 = isConnected s0 :=
      isConnected_congr _ _ hf.1
    rw [hc] at hnc'
    obtain ⟨h1, h2⟩ := ih hnc'
    exact ⟨hf.2.1.trans h1, hf.2.2.trans h2⟩
  | realtime_step s0 wr hr ih =>
    intro hnc'
    have hf := send_command_fields s0 wr
    have hc : isConnected (send_realtime s0 wr).1 = isConnected s0 :=
      isConnected_congr _ _ hf.1
    rw [hc] at hnc'
    obtain ⟨h1, h2⟩ := ih hnc'
    exact ⟨hf.2.1.trans h1, hf.2.2.trans h2⟩
  | soft_reset_step s0 wr hr ih =>
    intro hnc'
    have hf := send_command_fields s0 wr
    rcases hsr : send_realtime s0 wr with ⟨s1, res⟩
    have hsr' : send_command s0 wr = (s1, res) := hsr
    rw [hsr'] at hf
    cases res with
    | ok u =>
      constructor <;> simp [soft_reset, hsr]
    | error e =>
      have heq : (soft_reset s0 wr).1 = s1 := by
        simp [soft_reset, hsr]
      rw [heq] at hnc' ⊢
      rw [isConnected_congr _ _ hf.1] at hnc'
      obtain ⟨h1, h2⟩ := ih hnc'
      exact ⟨hf.2.1.trans h1, hf.2.2.trans h2⟩
  | run_frame_step s0 a b c d f p u wrs hr ih =>
    intro hnc'
    have hf := run_frame_fields s0 a b c d f p u wrs
    have hc : isConnected (run_frame s0 a b c d f p u wrs).1 = isConnected s0 :=
      isConnected_congr _ _ hf.1
    rw [hc] at hnc'
    obtain ⟨h1, h2⟩ := ih hnc'
    exact ⟨hf.2.1.trans h1, hf.2.2.trans h2⟩

/-- C10 witness: the state after a failed connect attempt from the initial
state is not connected, and its cache is zeroed. -/
theorem controller_invariant_witness :
    (connect ControllerState.default "p" 9600 (Except.error WorkerError.WorkerDead)).1.status
        = MachineStatus.default ∧
    (connect ControllerState.default "p" 9600
        (Except.error WorkerError.WorkerDead)).1.pending_alarm = none :=
  controller_invariant _ (Reachable.connect_step ControllerState.default "p" 9600
    (Except.error WorkerError.WorkerDead) Reachable.init) rfl
